import Mathlib

/-!
Shallow embedding of the SmartCartShop backend (Express + Prisma routes in
src/backend/routes and the sustainability router) as pure functions over an
explicit database state.  Monetary values and the per-unit environmental
figures are rationals; ids are naturals; stock and quantities are integers
(they come from JSON numbers and are never range-checked by the code).
Each route handler that mutates state is a function `DB → Except String (α × DB)`
(or `Except String DB`): an `Except.error` result models the handler's early
4xx return, which happens before any write, so the caller keeps the old state;
an `Except.ok` carries the state after the handler's transaction commits.
-/

abbrev Money := ℚ

/-- A row of the `Product` table.  The eco fields (`isEcoFriendly`,
`carbonFootprint`, `plasticContent`) are set by schema defaults on creation
(the create route never mentions them); the defaults are modelled as
`false` / `0`. -/
structure Product where
  pid : Nat
  name : String
  description : String
  price : Money
  imageUrl : Option String
  stock : Int
  category : String
  isEcoFriendly : Bool
  carbonFootprint : Money
  plasticContent : Money
deriving DecidableEq

/-- A row of the `CartItem` table: one cart line. -/
structure CartItem where
  cid : Nat
  userId : Nat
  productId : Nat
  quantity : Int
deriving DecidableEq

/-- A row of the `OrderItem` table: a purchased line with its price snapshot. -/
structure OrderItem where
  orderId : Nat
  productId : Nat
  quantity : Int
  price : Money
deriving DecidableEq

/-- A row of the `Order` table.  Statuses are the raw strings the code uses. -/
structure Order where
  oid : Nat
  userId : Nat
  total : Money
  status : String
deriving DecidableEq

/-- The database state visible to the modelled routes, together with the
auto-increment counters the store uses for fresh ids. -/
structure DB where
  products : List Product
  cartItems : List CartItem
  orders : List Order
  orderItems : List OrderItem
  nextProductId : Nat
  nextCartItemId : Nat
  nextOrderId : Nat
deriving DecidableEq

/-- `prisma.product.findUnique({ where: { id } })`. -/
def findProduct (db : DB) (pid : Nat) : Option Product :=
  db.products.find? (fun p => p.pid == pid)

/-- `prisma.cartItem.findMany({ where: { userId } })`: the caller's cart. -/
def userCart (db : DB) (u : Nat) : List CartItem :=
  db.cartItems.filter (fun ci => ci.userId == u)

/-- The stock-validation and total-computation loop of POST /orders
(orders.js lines 77-85): walk the cart, fail on the first line whose
product has `stock < quantity`, otherwise accumulate
`price * quantity`.  A cart line whose product row is missing cannot
occur under the store's foreign-key integrity; it is modelled as the
500-path. -/
def checkAndTotal (db : DB) : List CartItem → Except String Money
  | [] => Except.ok 0
  | ci :: rest =>
    match findProduct db ci.productId with
    | none => Except.error "Failed to create order"
    | some p =>
      if p.stock < ci.quantity then
        Except.error ("Insufficient stock for " ++ p.name)
      else
        match checkAndTotal db rest with
        | Except.ok t => Except.ok (p.price * (ci.quantity : Money) + t)
        | Except.error e => Except.error e

/-- The unit price recorded on an order item: the product's current price
(`price: item.product.price`, orders.js line 105). -/
def snapPrice (db : DB) (pid : Nat) : Money :=
  match findProduct db pid with
  | some p => p.price
  | none => 0

/-- One `tx.orderItem.create` per cart line (orders.js lines 100-107). -/
def snapshotItems (db : DB) (oid : Nat) (items : List CartItem) : List OrderItem :=
  items.map (fun ci =>
    { orderId := oid, productId := ci.productId, quantity := ci.quantity,
      price := snapPrice db ci.productId })

/-- `tx.product.update({ where: { id: pid }, data: { stock: { decrement: q } } })`. -/
def decStock (ps : List Product) (pid : Nat) (q : Int) : List Product :=
  ps.map (fun p => if p.pid == pid then { p with stock := p.stock - q } else p)

/-- The decrement loop of the checkout transaction (orders.js lines 109-117). -/
def applyDecrements (ps : List Product) (items : List CartItem) : List Product :=
  items.foldl (fun acc ci => decStock acc ci.productId ci.quantity) ps

/-- POST /orders (orders.js lines 64-126): read the caller's cart, reject an
empty cart, validate stock and compute the total, then in one transaction
create the order (status `pending`), create the order items with price
snapshots, decrement each product's stock, and delete the caller's cart
lines. -/
def createOrder (db : DB) (u : Nat) : Except String (Nat × DB) :=
  let items := userCart db u
  if items.isEmpty then
    Except.error "Cart is empty"
  else
    match checkAndTotal db items with
    | Except.error e => Except.error e
    | Except.ok total =>
      Except.ok (db.nextOrderId,
        { db with
          orders := db.orders ++
            [{ oid := db.nextOrderId, userId := u, total := total, status := "pending" }]
          orderItems := db.orderItems ++ snapshotItems db db.nextOrderId items
          products := applyDecrements db.products items
          cartItems := db.cartItems.filter (fun ci => ci.userId != u)
          nextOrderId := db.nextOrderId + 1 })

/-- `prisma.order.findFirst({ where: { id, userId } })`: lookup that treats an
order owned by someone else as absent. -/
def findOrder (db : DB) (u oid : Nat) : Option Order :=
  db.orders.find? (fun o => o.oid == oid && o.userId == u)

/-- `tx.product.update({ data: { stock: { increment: q } } })`. -/
def incStock (ps : List Product) (pid : Nat) (q : Int) : List Product :=
  ps.map (fun p => if p.pid == pid then { p with stock := p.stock + q } else p)

/-- The stock-restore loop of the cancellation transaction
(orders.js lines 215-224). -/
def applyIncrements (ps : List Product) (items : List OrderItem) : List Product :=
  items.foldl (fun acc oi => incStock acc oi.productId oi.quantity) ps

/-- DELETE /orders/:id (orders.js lines 190-237): find the caller's order,
reject a missing or foreign order, reject a non-pending order, otherwise in
one transaction restore each item's stock and delete the order (the order
items go with it by cascade). -/
def cancelOrder (db : DB) (u oid : Nat) : Except String DB :=
  match findOrder db u oid with
  | none => Except.error "Order not found"
  | some o =>
    if o.status != "pending" then
      Except.error "Can only cancel pending orders"
    else
      Except.ok
        { db with
          products := applyIncrements db.products
            (db.orderItems.filter (fun oi => oi.orderId == oid))
          orders := db.orders.filter (fun o2 => o2.oid != oid)
          orderItems := db.orderItems.filter (fun oi => oi.orderId != oid) }

/-- The status enum of PUT /orders/:id (orders.js line 153). -/
def validStatuses : List String :=
  ["pending", "processing", "shipped", "delivered", "cancelled"]

/-- PUT /orders/:id (orders.js lines 148-187): reject a missing status or one
outside the enum, reject a missing or foreign order, otherwise overwrite the
status field.  (A present-but-empty status is falsy in the code and also
outside the enum; both paths give the same error, so the model checks
membership.) -/
def updateOrderStatus (db : DB) (u oid : Nat) (status : Option String) :
    Except String (Order × DB) :=
  match status with
  | none => Except.error "Invalid status"
  | some s =>
    if s ∈ validStatuses then
      match findOrder db u oid with
      | none => Except.error "Order not found"
      | some o =>
        Except.ok ({ o with status := s },
          { db with
            orders := db.orders.map (fun o2 =>
              if o2.oid == oid then { o2 with status := s } else o2) })
    else
      Except.error "Invalid status"

/-- `prisma.cartItem.findUnique({ where: { userId_productId } })`: the unique
cart line of a (user, product) pair. -/
def findCartLine (db : DB) (u pid : Nat) : Option CartItem :=
  db.cartItems.find? (fun ci => ci.userId == u && ci.productId == pid)

/-- POST /cart (cart.js lines 29-88).  `productId` and `quantity` are taken
from the JSON body, so each is an `Option`; the code's truthiness test
`!productId || !quantity || quantity < 1` rejects a missing or zero value and
any quantity below one.  Then: product must exist, its stock must cover the
requested quantity (only the requested quantity), and the line for
(user, product) is upserted: an existing line has the quantity added, a
missing line is created. -/
def addToCart (db : DB) (u : Nat) (productId : Option Nat) (quantity : Option Int) :
    Except String (CartItem × DB) :=
  match productId, quantity with
  | some pid, some q =>
    if pid == 0 || q == 0 || q < 1 then
      Except.error "Invalid product or quantity"
    else
      match findProduct db pid with
      | none => Except.error "Product not found"
      | some p =>
        if p.stock < q then
          Except.error "Insufficient stock"
        else
          match findCartLine db u pid with
          | some existing =>
            Except.ok ({ existing with quantity := existing.quantity + q },
              { db with
                cartItems := db.cartItems.map (fun ci =>
                  if ci.cid == existing.cid then
                    { ci with quantity := existing.quantity + q }
                  else ci) })
          | none =>
            Except.ok (⟨db.nextCartItemId, u, pid, q⟩,
              { db with
                cartItems := db.cartItems ++ [⟨db.nextCartItemId, u, pid, q⟩]
                nextCartItemId := db.nextCartItemId + 1 })
  | _, _ => Except.error "Invalid product or quantity"

/-- PUT /cart/:id (cart.js lines 91-129): reject a missing/zero/below-one
quantity, require an owned cart line, require the product's stock to cover
the new quantity, then overwrite the quantity. -/
def updateCartItem (db : DB) (u cid : Nat) (quantity : Option Int) :
    Except String (CartItem × DB) :=
  match quantity with
  | none => Except.error "Invalid quantity"
  | some q =>
    if q == 0 || q < 1 then
      Except.error "Invalid quantity"
    else
      match db.cartItems.find? (fun ci => ci.cid == cid && ci.userId == u) with
      | none => Except.error "Cart item not found"
      | some ci =>
        match findProduct db ci.productId with
        | none => Except.error "Failed to update cart item"
        | some p =>
          if p.stock < q then
            Except.error "Insufficient stock"
          else
            Except.ok ({ ci with quantity := q },
              { db with
                cartItems := db.cartItems.map (fun c =>
                  if c.cid == cid then { c with quantity := q } else c) })

/-- DELETE /cart/:id (cart.js lines 132-157): delete an owned cart line. -/
def removeCartItem (db : DB) (u cid : Nat) : Except String DB :=
  match db.cartItems.find? (fun ci => ci.cid == cid && ci.userId == u) with
  | none => Except.error "Cart item not found"
  | some _ =>
    Except.ok { db with cartItems := db.cartItems.filter (fun ci => ci.cid != cid) }

/-- DELETE /cart (cart.js lines 160-171): delete all the caller's lines. -/
def clearCart (db : DB) (u : Nat) : DB :=
  { db with cartItems := db.cartItems.filter (fun ci => ci.userId != u) }

/-- The fields of a product create/update request body; each is an `Option`,
`none` standing for an absent JSON field. -/
structure ProductReq where
  name : Option String
  description : Option String
  price : Option Money
  imageUrl : Option String
  stock : Option Int
  category : Option String
deriving DecidableEq

/-- JavaScript truthiness of an optional string (absent and `""` are falsy). -/
def truthyStr : Option String → Bool
  | none => false
  | some s => s != ""

/-- JavaScript truthiness of an optional number (absent and `0` are falsy). -/
def truthyNum : Option Money → Bool
  | none => false
  | some q => q != 0

/-- POST /products (products.js lines 57-82): the required fields are
validated by truthiness (`!name || !description || !price || !category`);
`imageUrl || null` turns a falsy image url into null and `stock || 0` turns
a falsy stock into 0 (a negative stock is truthy and kept as sent). -/
def createProduct (db : DB) (r : ProductReq) : Except String (Product × DB) :=
  if truthyStr r.name && truthyStr r.description &&
      truthyNum r.price && truthyStr r.category then
    Except.ok
      (⟨db.nextProductId, r.name.getD "", r.description.getD "", r.price.getD 0,
        (match r.imageUrl with
         | some s => if s == "" then none else some s
         | none => none),
        r.stock.getD 0, r.category.getD "", false, 0, 0⟩,
       { db with
          products := db.products ++
            [⟨db.nextProductId, r.name.getD "", r.description.getD "", r.price.getD 0,
              (match r.imageUrl with
               | some s => if s == "" then none else some s
               | none => none),
              r.stock.getD 0, r.category.getD "", false, 0, 0⟩]
          nextProductId := db.nextProductId + 1 })
  else
    Except.error "Missing required fields"

/-- PUT /products/:id (products.js lines 85-111): each present field of the
body (`!== undefined`, so `0` and `""` count as present) overwrites the
stored one; a missing product is the P2025 path. -/
def updateProduct (db : DB) (pid : Nat) (r : ProductReq) :
    Except String (Product × DB) :=
  match findProduct db pid with
  | none => Except.error "Product not found"
  | some p =>
    Except.ok ({ p with
        name := r.name.getD p.name
        description := r.description.getD p.description
        price := r.price.getD p.price
        imageUrl := match r.imageUrl with | some s => some s | none => p.imageUrl
        stock := r.stock.getD p.stock
        category := r.category.getD p.category },
      { db with
        products := db.products.map (fun q =>
          if q.pid == pid then
            { p with
              name := r.name.getD p.name
              description := r.description.getD p.description
              price := r.price.getD p.price
              imageUrl := match r.imageUrl with | some s => some s | none => p.imageUrl
              stock := r.stock.getD p.stock
              category := r.category.getD p.category }
          else q) })

/-- DELETE /products/:id (products.js lines 114-130). -/
def deleteProduct (db : DB) (pid : Nat) : Except String DB :=
  match findProduct db pid with
  | none => Except.error "Product not found"
  | some _ =>
    Except.ok { db with products := db.products.filter (fun p => p.pid != pid) }

/-- Whether a cart line's product carries the eco flag (part_000 line 141). -/
def isEcoLine (db : DB) (ci : CartItem) : Bool :=
  match findProduct db ci.productId with
  | some p => p.isEcoFriendly
  | none => false

/-- The per-unit environmental figure of a cart line's product. -/
def lineCO2 (db : DB) (ci : CartItem) : Money :=
  (match findProduct db ci.productId with
   | some p => p.carbonFootprint
   | none => 0) * (ci.quantity : Money)

def linePlastic (db : DB) (ci : CartItem) : Money :=
  (match findProduct db ci.productId with
   | some p => p.plasticContent
   | none => 0) * (ci.quantity : Money)

/-- The body GET /cart-impact responds with (part_000 lines 147-154);
`ecoPercentage` is kept as an exact rational (the code formats it with one
decimal), and `potentialGreenPoints = Math.floor(eco * 10)` is `eco * 10`
since the count is an integer. -/
structure ImpactReport where
  totalCO2 : Money
  totalPlastic : Money
  ecoFriendlyItems : Nat
  totalItems : Nat
  potentialGreenPoints : Nat
  ecoPercentage : Money
deriving DecidableEq

/-- GET /cart-impact (part_000 lines 127-159): a read-only aggregation over
the caller's cart; the eco count counts lines (not quantities), the
percentage divides it by the number of lines. -/
def cartImpact (db : DB) (u : Nat) : ImpactReport :=
  let items := userCart db u
  let eco := (items.filter (isEcoLine db)).length
  { totalCO2 := (items.map (lineCO2 db)).sum
    totalPlastic := (items.map (linePlastic db)).sum
    ecoFriendlyItems := eco
    totalItems := items.length
    potentialGreenPoints := eco * 10
    ecoPercentage :=
      if items.length > 0 then ((eco : Money) / (items.length : Money)) * 100 else 0 }

/-- One client-visible mutating operation of the system.  `register` touches
only the user table, which carries no product state, so it is the identity
on the modelled tables. -/
inductive Op where
  | register
  | addCart (u : Nat) (productId : Option Nat) (quantity : Option Int)
  | updateCart (u cid : Nat) (quantity : Option Int)
  | removeCart (u cid : Nat)
  | clearCart (u : Nat)
  | checkout (u : Nat)
  | cancel (u oid : Nat)
  | setStatus (u oid : Nat) (status : Option String)
  | prodCreate (r : ProductReq)
  | prodUpdate (pid : Nat) (r : ProductReq)
  | prodDelete (pid : Nat)
deriving DecidableEq

/-- Run one operation: a handler that fails leaves the state unchanged (every
4xx return happens before any write, and the transactional writes commit as
one). -/
def applyOp (db : DB) : Op → DB
  | Op.register => db
  | Op.addCart u pid q =>
    match addToCart db u pid q with
    | Except.ok (_, db2) => db2
    | Except.error _ => db
  | Op.updateCart u cid q =>
    match updateCartItem db u cid q with
    | Except.ok (_, db2) => db2
    | Except.error _ => db
  | Op.removeCart u cid =>
    match removeCartItem db u cid with
    | Except.ok db2 => db2
    | Except.error _ => db
  | Op.clearCart u => clearCart db u
  | Op.checkout u =>
    match createOrder db u with
    | Except.ok (_, db2) => db2
    | Except.error _ => db
  | Op.cancel u oid =>
    match cancelOrder db u oid with
    | Except.ok db2 => db2
    | Except.error _ => db
  | Op.setStatus u oid s =>
    match updateOrderStatus db u oid s with
    | Except.ok (_, db2) => db2
    | Except.error _ => db
  | Op.prodCreate r =>
    match createProduct db r with
    | Except.ok (_, db2) => db2
    | Except.error _ => db
  | Op.prodUpdate pid r =>
    match updateProduct db pid r with
    | Except.ok (_, db2) => db2
    | Except.error _ => db
  | Op.prodDelete pid =>
    match deleteProduct db pid with
    | Except.ok db2 => db2
    | Except.error _ => db

/-- Run a sequence of operations. -/
def runOps (db : DB) (ops : List Op) : DB :=
  ops.foldl applyOp db

/-- The empty store a fresh deployment starts from. -/
def initDB : DB :=
  { products := [], cartItems := [], orders := [], orderItems := [],
    nextProductId := 1, nextCartItemId := 1, nextOrderId := 1 }

/-- A cart line passes the checkout stock validation: its product row exists
and covers the line's quantity. -/
def lineOk (db : DB) (ci : CartItem) : Bool :=
  match findProduct db ci.productId with
  | some p => decide (ci.quantity ≤ p.stock)
  | none => false

/-- The money a cart line contributes to an order total: current unit price
times quantity. -/
def lineAmount (db : DB) (ci : CartItem) : Money :=
  snapPrice db ci.productId * (ci.quantity : Money)

/-- Total quantity of a given product over a list of cart lines. -/
def qtyOf (items : List CartItem) (pid : Nat) : Int :=
  ((items.filter (fun ci => ci.productId == pid)).map (fun ci => ci.quantity)).sum

/-- Total quantity of a given product over a list of order items. -/
def ordQtyOf (items : List OrderItem) (pid : Nat) : Int :=
  ((items.filter (fun oi => oi.productId == pid)).map (fun oi => oi.quantity)).sum

/-- Whether an operation's admin-supplied stock value (if any) is
non-negative; every non-admin operation is vacuously clean. -/
def cleanOp : Op → Bool
  | Op.prodCreate r =>
    match r.stock with
    | none => true
    | some s => decide (0 ≤ s)
  | Op.prodUpdate _ r =>
    match r.stock with
    | none => true
    | some s => decide (0 ≤ s)
  | _ => true

/-- Scenario state: product A (price 3, stock 5) and one cart line A times 3
for user 1. -/
def dbS1 : DB :=
  { products := [⟨1, "A", "desc", 3, none, 5, "cat", false, 0, 0⟩],
    cartItems := [⟨1, 1, 1, 3⟩], orders := [], orderItems := [],
    nextProductId := 2, nextCartItemId := 2, nextOrderId := 1 }

/-- Scenario 2 state: product A has stock 2 while the cart asks for 3. -/
def dbS2 : DB :=
  { products := [⟨1, "A", "desc", 3, none, 2, "cat", false, 0, 0⟩],
    cartItems := [⟨1, 1, 1, 3⟩], orders := [], orderItems := [],
    nextProductId := 2, nextCartItemId := 2, nextOrderId := 1 }

/-- The order row checkout inserts: fresh id, the caller, the computed total,
status pending. -/
def pendingOrder (db : DB) (u : Nat) (t : Money) : Order :=
  { oid := db.nextOrderId, userId := u, total := t, status := "pending" }

/-- The state a successful checkout commits (used to relate checkout and
cancellation). -/
def checkoutState (db : DB) (u : Nat) : DB :=
  { db with
    orders := db.orders ++ [pendingOrder db u (((userCart db u).map (lineAmount db)).sum)]
    orderItems := db.orderItems ++ snapshotItems db db.nextOrderId (userCart db u)
    products := applyDecrements db.products (userCart db u)
    cartItems := db.cartItems.filter (fun ci => ci.userId != u)
    nextOrderId := db.nextOrderId + 1 }

/-- The state a successful cancellation commits. -/
def cancelState (db : DB) (oid : Nat) : DB :=
  { db with
    products := applyIncrements db.products
      (db.orderItems.filter (fun oi => oi.orderId == oid))
    orders := db.orders.filter (fun o2 => o2.oid != oid)
    orderItems := db.orderItems.filter (fun oi => oi.orderId != oid) }

/-- Witness state with a shipped (non-pending) order of user 1. -/
def dbS5 : DB :=
  { products := [⟨1, "A", "desc", 3, none, 5, "cat", false, 0, 0⟩],
    cartItems := [], orders := [⟨7, 1, 9, "shipped"⟩],
    orderItems := [⟨7, 1, 3, 3⟩],
    nextProductId := 2, nextCartItemId := 1, nextOrderId := 8 }

/-- Witness state with a pending order of user 1. -/
def dbS6 : DB :=
  { products := [⟨1, "A", "desc", 3, none, 2, "cat", false, 0, 0⟩],
    cartItems := [⟨1, 1, 1, 1⟩], orders := [⟨7, 1, 9, "pending"⟩],
    orderItems := [⟨7, 1, 3, 3⟩],
    nextProductId := 2, nextCartItemId := 2, nextOrderId := 8 }

/-- Witness state for the over-add: stock 5 but the user already holds 4 in
the cart. -/
def dbS9 : DB :=
  { products := [⟨1, "A", "desc", 3, none, 5, "cat", false, 0, 0⟩],
    cartItems := [⟨1, 1, 1, 4⟩], orders := [], orderItems := [],
    nextProductId := 2, nextCartItemId := 2, nextOrderId := 1 }

/-- Scenario 6 state: five cart lines for user 1, products 1 and 2 carrying
the eco flag, products 3-5 not. -/
def dbS8 : DB :=
  { products := [⟨1, "a", "d", 1, none, 9, "c", true, 2, 1⟩,
                 ⟨2, "b", "d", 1, none, 9, "c", true, 1, 1⟩,
                 ⟨3, "e", "d", 1, none, 9, "c", false, 1, 1⟩,
                 ⟨4, "f", "d", 1, none, 9, "c", false, 1, 1⟩,
                 ⟨5, "g", "d", 1, none, 9, "c", false, 1, 1⟩],
    cartItems := [⟨1, 1, 1, 2⟩, ⟨2, 1, 2, 1⟩, ⟨3, 1, 3, 1⟩, ⟨4, 1, 4, 1⟩, ⟨5, 1, 5, 1⟩],
    orders := [], orderItems := [],
    nextProductId := 6, nextCartItemId := 6, nextOrderId := 1 }

/-- The state well-formedness the store's schema provides (primary keys,
the (user, product) uniqueness of cart lines, validated quantities) together
with the non-negative-stock property under scrutiny. -/
def StoreInv (db : DB) : Prop :=
  (∀ p ∈ db.products, 0 ≤ p.stock) ∧
  (db.products.map (fun p => p.pid)).Nodup ∧
  (∀ p ∈ db.products, p.pid < db.nextProductId) ∧
  List.Pairwise
    (fun a b : CartItem => a.userId ≠ b.userId ∨ a.productId ≠ b.productId)
    db.cartItems ∧
  (∀ ci ∈ db.cartItems, 1 ≤ ci.quantity) ∧
  (∀ oi ∈ db.orderItems, 0 ≤ oi.quantity)

/-- A clean operation trace used as a witness: create a product, add it to a
cart, check out, cancel. -/
def opsW : List Op :=
  [Op.prodCreate ⟨some "A", some "desc", some 3, none, some 5, some "cat"⟩,
   Op.addCart 1 (some 1) (some 2), Op.checkout 1, Op.cancel 1 1]

/-! ### Shared lemmas about the checkout transaction -/

theorem checkAndTotal_ok (db : DB) (items : List CartItem)
    (h : ∀ ci ∈ items, lineOk db ci = true) :
    checkAndTotal db items = Except.ok ((items.map (lineAmount db)).sum) := by
  induction items with
  | nil => simp [checkAndTotal]
  | cons ci rest ih =>
    have hci := h ci (List.mem_cons_self ci rest)
    have hrest := fun c hc => h c (List.mem_cons_of_mem ci hc)
    unfold lineOk at hci
    cases hfp : findProduct db ci.productId with
    | none => rw [hfp] at hci; exact absurd hci (by simp)
    | some p =>
      rw [hfp] at hci
      have hle : ci.quantity ≤ p.stock := of_decide_eq_true hci
      simp only [checkAndTotal, hfp, if_neg (not_lt.mpr hle), ih hrest,
        List.map_cons, List.sum_cons, lineAmount, snapPrice, hfp]

theorem qtyOf_cons (ci : CartItem) (items : List CartItem) (pid : Nat) :
    qtyOf (ci :: items) pid =
      (if ci.productId == pid then ci.quantity else 0) + qtyOf items pid := by
  by_cases h : ci.productId = pid
  · simp [qtyOf, List.filter_cons, h]
  · simp [qtyOf, List.filter_cons, h]

theorem applyDecrements_eq (items : List CartItem) (ps : List Product) :
    applyDecrements ps items =
      ps.map (fun p => { p with stock := p.stock - qtyOf items p.pid }) := by
  induction items generalizing ps with
  | nil =>
    show ps = _
    have : ∀ p ∈ ps, p = { p with stock := p.stock - qtyOf [] p.pid } := by
      intro p _
      simp [qtyOf]
    calc ps = ps.map id := (List.map_id ps).symm
      _ = _ := List.map_congr_left (fun p hp => this p hp)
  | cons ci rest ih =>
    show applyDecrements (decStock ps ci.productId ci.quantity) rest = _
    rw [ih, decStock, List.map_map]
    refine List.map_congr_left (fun p _ => ?_)
    simp only [Function.comp_apply]
    by_cases h : p.pid = ci.productId
    · simp [h, qtyOf_cons, sub_sub]
    · have hne : (ci.productId == p.pid) = false := by
        simp [Ne.symm h]
      have hne2 : (p.pid == ci.productId) = false := by simp [h]
      simp [hne, hne2, qtyOf_cons]

/-- C1: a checkout from a non-empty cart in which every line's product covers
the line's quantity succeeds and, in one committed transaction, appends
exactly one pending order whose total is the sum of unit price times
quantity over the cart, appends one order item per cart line with the
current unit price, lowers every product's stock by the quantity purchased
of it, and removes exactly the caller's cart lines. -/
theorem checkout_success (db : DB) (u : Nat)
    (hne : userCart db u ≠ [])
    (hok : ∀ ci ∈ userCart db u, lineOk db ci = true) :
    ∃ db2, createOrder db u = Except.ok (db.nextOrderId, db2) ∧
      db2.orders = db.orders ++
        [{ oid := db.nextOrderId, userId := u,
           total := ((userCart db u).map (lineAmount db)).sum, status := "pending" }] ∧
      db2.orderItems = db.orderItems ++ (userCart db u).map (fun ci =>
        { orderId := db.nextOrderId, productId := ci.productId,
          quantity := ci.quantity, price := snapPrice db ci.productId }) ∧
      db2.products = db.products.map
        (fun p => { p with stock := p.stock - qtyOf (userCart db u) p.pid }) ∧
      db2.cartItems = db.cartItems.filter (fun ci => ci.userId != u) := by
  have hempty : (userCart db u).isEmpty = false := by
    simpa [List.isEmpty_iff] using hne
  have h := checkAndTotal_ok db (userCart db u) hok
  simp only [createOrder, hempty, Bool.false_eq_true, if_false, h]
  exact ⟨_, rfl, rfl, rfl, applyDecrements_eq _ _, rfl⟩

theorem checkout_success_witness :
    ∃ db2, createOrder dbS1 1 = Except.ok (dbS1.nextOrderId, db2) ∧
      db2.orders = dbS1.orders ++
        [{ oid := dbS1.nextOrderId, userId := 1,
           total := ((userCart dbS1 1).map (lineAmount dbS1)).sum, status := "pending" }] ∧
      db2.orderItems = dbS1.orderItems ++ (userCart dbS1 1).map (fun ci =>
        { orderId := dbS1.nextOrderId, productId := ci.productId,
          quantity := ci.quantity, price := snapPrice dbS1 ci.productId }) ∧
      db2.products = dbS1.products.map
        (fun p => { p with stock := p.stock - qtyOf (userCart dbS1 1) p.pid }) ∧
      db2.cartItems = dbS1.cartItems.filter (fun ci => ci.userId != 1) :=
  checkout_success dbS1 1 (by decide) (by decide)

theorem checkAndTotal_err (db : DB) (items : List CartItem)
    (hex : ∀ ci ∈ items, (findProduct db ci.productId).isSome = true)
    (hbad : ∃ ci ∈ items, lineOk db ci = false) :
    ∃ p ∈ db.products, (∃ ci ∈ items, ci.productId = p.pid ∧ p.stock < ci.quantity) ∧
      checkAndTotal db items = Except.error ("Insufficient stock for " ++ p.name) := by
  induction items with
  | nil => simp at hbad
  | cons ci rest ih =>
    obtain ⟨pp, hpp⟩ := Option.isSome_iff_exists.mp (hex ci (List.mem_cons_self ci rest))
    have hpid : pp.pid = ci.productId := by
      have := List.find?_some hpp
      simpa using this
    cases hl : lineOk db ci with
    | false =>
      have hlt : pp.stock < ci.quantity := by
        unfold lineOk at hl
        rw [hpp] at hl
        exact lt_of_not_le (of_decide_eq_false hl)
      refine ⟨pp, List.mem_of_find?_eq_some hpp,
        ⟨ci, List.mem_cons_self ci rest, hpid.symm, hlt⟩, ?_⟩
      simp [checkAndTotal, hpp, hlt]
    | true =>
      have hle : ci.quantity ≤ pp.stock := by
        unfold lineOk at hl
        rw [hpp] at hl
        exact of_decide_eq_true hl
      have hbad2 : ∃ c ∈ rest, lineOk db c = false := by
        obtain ⟨cj, hcj, hcjf⟩ := hbad
        rcases List.mem_cons.mp hcj with rfl | hmem
        · rw [hl] at hcjf; exact absurd hcjf (by simp)
        · exact ⟨cj, hmem, hcjf⟩
      obtain ⟨p, hpmem, ⟨cw, hcw, hcwpid, hcwlt⟩, herr⟩ :=
        ih (fun c hc => hex c (List.mem_cons_of_mem ci hc)) hbad2
      refine ⟨p, hpmem, ⟨cw, List.mem_cons_of_mem ci hcw, hcwpid, hcwlt⟩, ?_⟩
      simp [checkAndTotal, hpp, not_lt.mpr hle, herr]

/-- C2: checkout of an empty cart fails with the empty-cart error, and a
checkout in which some line fails the stock validation (all cart products
existing) fails with the insufficient-stock error naming a product the cart
overdraws; in both failure cases the state after the operation is exactly
the state before it, so no stock is decremented, no order is created and no
cart line is deleted. -/
theorem checkout_rejects (db : DB) (u : Nat) :
    (userCart db u = [] →
      createOrder db u = Except.error "Cart is empty" ∧
      applyOp db (Op.checkout u) = db) ∧
    ((∀ ci ∈ userCart db u, (findProduct db ci.productId).isSome = true) →
     (∃ ci ∈ userCart db u, lineOk db ci = false) →
     ∃ p ∈ db.products, (∃ ci ∈ userCart db u, ci.productId = p.pid ∧ p.stock < ci.quantity) ∧
       createOrder db u = Except.error ("Insufficient stock for " ++ p.name) ∧
       applyOp db (Op.checkout u) = db) := by
  constructor
  · intro hemp
    have herr : createOrder db u = Except.error "Cart is empty" := by
      simp [createOrder, hemp]
    exact ⟨herr, by simp [applyOp, herr]⟩
  · intro hex hbad
    obtain ⟨p, hpmem, hwit, herr⟩ := checkAndTotal_err db (userCart db u) hex hbad
    have hne : (userCart db u).isEmpty = false := by
      obtain ⟨ci, hci, _⟩ := hbad
      rcases h : userCart db u with _ | _
      · rw [h] at hci; simp at hci
      · simp [h]
    have herr2 : createOrder db u = Except.error ("Insufficient stock for " ++ p.name) := by
      simp [createOrder, hne, herr]
    exact ⟨p, hpmem, hwit, herr2, by simp [applyOp, herr2]⟩

theorem checkout_rejects_witness :
    (createOrder initDB 1 = Except.error "Cart is empty" ∧
      applyOp initDB (Op.checkout 1) = initDB) ∧
    (∃ p ∈ dbS2.products, (∃ ci ∈ userCart dbS2 1, ci.productId = p.pid ∧ p.stock < ci.quantity) ∧
      createOrder dbS2 1 = Except.error ("Insufficient stock for " ++ p.name) ∧
      applyOp dbS2 (Op.checkout 1) = dbS2) :=
  ⟨(checkout_rejects initDB 1).1 (by decide),
   (checkout_rejects dbS2 1).2 (by decide) (by decide)⟩

theorem ordQtyOf_cons (oi : OrderItem) (items : List OrderItem) (pid : Nat) :
    ordQtyOf (oi :: items) pid =
      (if oi.productId == pid then oi.quantity else 0) + ordQtyOf items pid := by
  by_cases h : oi.productId = pid
  · simp [ordQtyOf, List.filter_cons, h]
  · simp [ordQtyOf, List.filter_cons, h]

theorem applyIncrements_eq (items : List OrderItem) (ps : List Product) :
    applyIncrements ps items =
      ps.map (fun p => { p with stock := p.stock + ordQtyOf items p.pid }) := by
  induction items generalizing ps with
  | nil =>
    show ps = _
    have : ∀ p ∈ ps, p = { p with stock := p.stock + ordQtyOf [] p.pid } := by
      intro p _
      simp [ordQtyOf]
    calc ps = ps.map id := (List.map_id ps).symm
      _ = _ := List.map_congr_left (fun p hp => this p hp)
  | cons oi rest ih =>
    show applyIncrements (incStock ps oi.productId oi.quantity) rest = _
    rw [ih, incStock, List.map_map]
    refine List.map_congr_left (fun p _ => ?_)
    simp only [Function.comp_apply]
    by_cases h : p.pid = oi.productId
    · simp [h, ordQtyOf_cons, add_assoc]
    · have hne : (oi.productId == p.pid) = false := by simp [Ne.symm h]
      have hne2 : (p.pid == oi.productId) = false := by simp [h]
      simp [hne, hne2, ordQtyOf_cons]

theorem ordQtyOf_snapshot (db : DB) (oid : Nat) (items : List CartItem) (pid : Nat) :
    ordQtyOf (snapshotItems db oid items) pid = qtyOf items pid := by
  induction items with
  | nil => rfl
  | cons ci rest ih =>
    show ordQtyOf
        ({ orderId := oid, productId := ci.productId, quantity := ci.quantity,
           price := snapPrice db ci.productId } :: snapshotItems db oid rest) pid =
      qtyOf (ci :: rest) pid
    rw [ordQtyOf_cons, qtyOf_cons, ih]

/-- C3: placing an order from a valid non-empty cart and cancelling it right
away (the order id being fresh) gives every product back its pre-checkout
stock and puts the order and order-item tables back in their pre-checkout
state, so the cancelled order is no longer retrievable. -/
theorem checkout_then_cancel (db : DB) (u : Nat)
    (hne : userCart db u ≠ [])
    (hok : ∀ ci ∈ userCart db u, lineOk db ci = true)
    (hordfresh : ∀ o ∈ db.orders, o.oid ≠ db.nextOrderId)
    (hitfresh : ∀ oi ∈ db.orderItems, oi.orderId ≠ db.nextOrderId) :
    ∃ db2 db3, createOrder db u = Except.ok (db.nextOrderId, db2) ∧
      cancelOrder db2 u db.nextOrderId = Except.ok db3 ∧
      db3.products = db.products ∧
      db3.orders = db.orders ∧
      db3.orderItems = db.orderItems ∧
      findOrder db3 u db.nextOrderId = none := by
  have hempty : (userCart db u).isEmpty = false := by
    simpa [List.isEmpty_iff] using hne
  have h := checkAndTotal_ok db (userCart db u) hok
  have hco : createOrder db u = Except.ok (db.nextOrderId, checkoutState db u) := by
    simp only [createOrder, hempty, Bool.false_eq_true, if_false, h]
    rfl
  have hfold : db.orders.find? (fun o => o.oid == db.nextOrderId && o.userId == u) = none :=
    List.find?_eq_none.mpr (fun o ho => by simp [hordfresh o ho])
  have hfind2 : findOrder (checkoutState db u) u db.nextOrderId
      = some (pendingOrder db u (((userCart db u).map (lineAmount db)).sum)) := by
    simp only [findOrder, checkoutState, List.find?_append, hfold, Option.none_or]
    simp [pendingOrder]
  have hsnapall : ∀ oi ∈ snapshotItems db db.nextOrderId (userCart db u),
      oi.orderId = db.nextOrderId := by
    intro oi hoi
    obtain ⟨ci, _, rfl⟩ := List.mem_map.mp hoi
    rfl
  have holdnil : db.orderItems.filter (fun oi => oi.orderId == db.nextOrderId) = [] :=
    List.filter_eq_nil_iff.mpr (fun oi hoi => by simp [hitfresh oi hoi])
  have hsnapkeep : (snapshotItems db db.nextOrderId (userCart db u)).filter
      (fun oi => oi.orderId == db.nextOrderId) = snapshotItems db db.nextOrderId (userCart db u) :=
    List.filter_eq_self.mpr (fun oi hoi => by simp [hsnapall oi hoi])
  have hsnapnil : (snapshotItems db db.nextOrderId (userCart db u)).filter
      (fun oi => oi.orderId != db.nextOrderId) = [] :=
    List.filter_eq_nil_iff.mpr (fun oi hoi => by simp [hsnapall oi hoi])
  have hkeepItems : db.orderItems.filter (fun oi => oi.orderId != db.nextOrderId) = db.orderItems :=
    List.filter_eq_self.mpr (fun oi hoi => by simp [hitfresh oi hoi])
  have hkeepOrds : db.orders.filter (fun o2 => o2.oid != db.nextOrderId) = db.orders :=
    List.filter_eq_self.mpr (fun o ho => by simp [hordfresh o ho])
  have hcancel : cancelOrder (checkoutState db u) u db.nextOrderId
      = Except.ok (cancelState (checkoutState db u) db.nextOrderId) := by
    simp only [cancelOrder, hfind2]
    rfl
  have hB : (cancelState (checkoutState db u) db.nextOrderId).orders = db.orders := by
    simp only [cancelState, checkoutState, List.filter_append, hkeepOrds]
    simp [pendingOrder]
  have hA : (cancelState (checkoutState db u) db.nextOrderId).products = db.products := by
    simp only [cancelState, checkoutState, List.filter_append, holdnil, hsnapkeep,
      List.nil_append]
    rw [applyDecrements_eq, applyIncrements_eq, List.map_map]
    calc db.products.map _ = db.products.map id :=
          List.map_congr_left (fun p _ => by
            simp only [Function.comp_apply, ordQtyOf_snapshot, sub_add_cancel, id])
      _ = db.products := List.map_id db.products
  have hC : (cancelState (checkoutState db u) db.nextOrderId).orderItems = db.orderItems := by
    simp only [cancelState, checkoutState, List.filter_append, hkeepItems, hsnapnil,
      List.append_nil]
  refine ⟨checkoutState db u, cancelState (checkoutState db u) db.nextOrderId,
    hco, hcancel, hA, hB, hC, ?_⟩
  simp only [findOrder, hB]
  exact hfold

theorem checkout_then_cancel_witness :
    ∃ db2 db3, createOrder dbS1 1 = Except.ok (dbS1.nextOrderId, db2) ∧
      cancelOrder db2 1 dbS1.nextOrderId = Except.ok db3 ∧
      db3.products = dbS1.products ∧
      db3.orders = dbS1.orders ∧
      db3.orderItems = dbS1.orderItems ∧
      findOrder db3 1 dbS1.nextOrderId = none :=
  checkout_then_cancel dbS1 1 (by decide) (by decide) (by decide) (by decide)

/-- C5: cancelling a missing order, or one owned by another user, fails with
the not-found error; cancelling an order whose status is not pending fails
with the pending-only error; in every failure case the whole state — stock
included — is exactly what it was before the call and the order is kept. -/
theorem cancel_failures (db : DB) (u oid : Nat) :
    (findOrder db u oid = none →
      cancelOrder db u oid = Except.error "Order not found" ∧
      applyOp db (Op.cancel u oid) = db) ∧
    (∀ o, findOrder db u oid = some o → o.status ≠ "pending" →
      cancelOrder db u oid = Except.error "Can only cancel pending orders" ∧
      applyOp db (Op.cancel u oid) = db) := by
  constructor
  · intro hf
    have herr : cancelOrder db u oid = Except.error "Order not found" := by
      simp [cancelOrder, hf]
    exact ⟨herr, by simp [applyOp, herr]⟩
  · intro o hf hs
    have herr : cancelOrder db u oid = Except.error "Can only cancel pending orders" := by
      simp [cancelOrder, hf, hs]
    exact ⟨herr, by simp [applyOp, herr]⟩

theorem cancel_failures_witness :
    (cancelOrder dbS5 1 99 = Except.error "Order not found" ∧
      applyOp dbS5 (Op.cancel 1 99) = dbS5) ∧
    (cancelOrder dbS5 1 7 = Except.error "Can only cancel pending orders" ∧
      applyOp dbS5 (Op.cancel 1 7) = dbS5) :=
  ⟨(cancel_failures dbS5 1 99).1 (by decide),
   (cancel_failures dbS5 1 7).2 ⟨7, 1, 9, "shipped"⟩ (by decide) (by decide)⟩

/-- C6: a status update with any enum value succeeds whatever the order's
current status is and rewrites only the status field of that order — the
product, order-item and cart tables are untouched, also for an update to
cancelled; a missing status or a value outside the enum is rejected and
changes nothing. -/
theorem status_update_frame (db : DB) (u oid : Nat) (s : String) :
    (∀ o, findOrder db u oid = some o → s ∈ validStatuses →
      ∃ db2, updateOrderStatus db u oid (some s) =
          Except.ok ({ o with status := s }, db2) ∧
        db2.products = db.products ∧
        db2.orderItems = db.orderItems ∧
        db2.cartItems = db.cartItems ∧
        db2.orders = db.orders.map (fun o2 =>
          if o2.oid == oid then { o2 with status := s } else o2)) ∧
    (s ∉ validStatuses →
      updateOrderStatus db u oid (some s) = Except.error "Invalid status" ∧
      applyOp db (Op.setStatus u oid (some s)) = db) ∧
    (updateOrderStatus db u oid none = Except.error "Invalid status" ∧
      applyOp db (Op.setStatus u oid none) = db) := by
  refine ⟨?_, ?_, ?_⟩
  · intro o hfind hs
    have hupd : updateOrderStatus db u oid (some s) =
        Except.ok ({ o with status := s },
          { db with orders := db.orders.map (fun o2 =>
              if o2.oid == oid then { o2 with status := s } else o2) }) := by
      simp [updateOrderStatus, hs, hfind]
    exact ⟨_, hupd, rfl, rfl, rfl, rfl⟩
  · intro hs
    have herr : updateOrderStatus db u oid (some s) = Except.error "Invalid status" := by
      simp [updateOrderStatus, hs]
    exact ⟨herr, by simp [applyOp, herr]⟩
  · have herr : updateOrderStatus db u oid none = Except.error "Invalid status" := rfl
    exact ⟨herr, by simp [applyOp, herr]⟩

theorem status_update_frame_witness :
    (∃ db2, updateOrderStatus dbS6 1 7 (some "cancelled") =
        Except.ok ({ oid := 7, userId := 1, total := 9, status := "cancelled" }, db2) ∧
      db2.products = dbS6.products ∧
      db2.orderItems = dbS6.orderItems ∧
      db2.cartItems = dbS6.cartItems ∧
      db2.orders = dbS6.orders.map (fun o2 =>
        if o2.oid == 7 then { o2 with status := "cancelled" } else o2)) ∧
    (updateOrderStatus dbS6 1 7 (some "bogus") = Except.error "Invalid status" ∧
      applyOp dbS6 (Op.setStatus 1 7 (some "bogus")) = dbS6) ∧
    (updateOrderStatus dbS6 1 7 none = Except.error "Invalid status" ∧
      applyOp dbS6 (Op.setStatus 1 7 none) = dbS6) :=
  ⟨(status_update_frame dbS6 1 7 "cancelled").1 ⟨7, 1, 9, "pending"⟩ (by decide) (by decide),
   (status_update_frame dbS6 1 7 "bogus").2.1 (by decide),
   (status_update_frame dbS6 1 7 "bogus").2.2⟩

/-- C7: adding a product to the cart with a quantity of at least one, the
product existing with stock covering the requested quantity, upserts: an
existing (user, product) line gets the quantity added onto it — the row
count does not change, so no duplicate is created — and with no existing
line a new row holding exactly the requested quantity is appended; the
product table is untouched either way. -/
theorem cart_add_upsert (db : DB) (u pid : Nat) (q : Int) (p : Product)
    (hpid : pid ≠ 0) (hq : 1 ≤ q)
    (hp : findProduct db pid = some p) (hs : q ≤ p.stock) :
    (∀ ci, findCartLine db u pid = some ci →
      ∃ db2, addToCart db u (some pid) (some q) =
          Except.ok ({ ci with quantity := ci.quantity + q }, db2) ∧
        db2.cartItems = db.cartItems.map (fun c =>
          if c.cid == ci.cid then { c with quantity := ci.quantity + q } else c) ∧
        db2.cartItems.length = db.cartItems.length ∧
        db2.products = db.products) ∧
    (findCartLine db u pid = none →
      ∃ db2, addToCart db u (some pid) (some q) =
          Except.ok (⟨db.nextCartItemId, u, pid, q⟩, db2) ∧
        db2.cartItems = db.cartItems ++ [⟨db.nextCartItemId, u, pid, q⟩] ∧
        db2.products = db.products) := by
  have hq0 : q ≠ 0 := by omega
  have hlt : ¬(q < 1) := not_lt.mpr hq
  have hstk : ¬(p.stock < q) := not_lt.mpr hs
  constructor
  · intro ci hline
    have hadd : addToCart db u (some pid) (some q) =
        Except.ok ({ ci with quantity := ci.quantity + q },
          { db with cartItems := db.cartItems.map (fun c =>
              if c.cid == ci.cid then { c with quantity := ci.quantity + q } else c) }) := by
      simp [addToCart, hpid, hq0, hlt, hp, hstk, hline]
    exact ⟨_, hadd, rfl, List.length_map _ _, rfl⟩
  · intro hline
    have hadd : addToCart db u (some pid) (some q) =
        Except.ok (⟨db.nextCartItemId, u, pid, q⟩,
          { db with cartItems := db.cartItems ++ [⟨db.nextCartItemId, u, pid, q⟩],
                    nextCartItemId := db.nextCartItemId + 1 }) := by
      simp [addToCart, hpid, hq0, hlt, hp, hstk, hline]
    exact ⟨_, hadd, rfl, rfl⟩

theorem cart_add_upsert_witness :
    (∃ db2, addToCart dbS1 1 (some 1) (some 2) =
        Except.ok ({ cid := 1, userId := 1, productId := 1, quantity := 5 }, db2) ∧
      db2.cartItems = dbS1.cartItems.map (fun c =>
        if c.cid == 1 then { c with quantity := 3 + 2 } else c) ∧
      db2.cartItems.length = dbS1.cartItems.length ∧
      db2.products = dbS1.products) ∧
    (∃ db2, addToCart dbS1 2 (some 1) (some 2) =
        Except.ok (⟨dbS1.nextCartItemId, 2, 1, 2⟩, db2) ∧
      db2.cartItems = dbS1.cartItems ++ [⟨dbS1.nextCartItemId, 2, 1, 2⟩] ∧
      db2.products = dbS1.products) :=
  ⟨(cart_add_upsert dbS1 1 1 2 ⟨1, "A", "desc", 3, none, 5, "cat", false, 0, 0⟩
      (by decide) (by decide) (by decide) (by decide)).1 ⟨1, 1, 1, 3⟩ (by decide),
   (cart_add_upsert dbS1 2 1 2 ⟨1, "A", "desc", 3, none, 5, "cat", false, 0, 0⟩
      (by decide) (by decide) (by decide) (by decide)).2 (by decide)⟩

/-- C9: the add-to-cart stock check compares the product's stock with the
requested increment only, never with the resulting line total, so whenever
an existing line plus the increment overshoots the stock while the increment
alone is covered, the add still succeeds and the cart is left holding a line
whose quantity exceeds the product's current stock. -/
theorem cart_add_ignores_existing (db : DB) (u pid : Nat) (q : Int) (p : Product) (ci : CartItem)
    (hpid : pid ≠ 0) (hq : 1 ≤ q)
    (hp : findProduct db pid = some p) (hs : q ≤ p.stock)
    (hline : findCartLine db u pid = some ci)
    (hover : p.stock < ci.quantity + q) :
    ∃ db2, addToCart db u (some pid) (some q) =
        Except.ok ({ ci with quantity := ci.quantity + q }, db2) ∧
      ∃ c ∈ db2.cartItems, c.userId = u ∧ c.productId = pid ∧ p.stock < c.quantity := by
  have hq0 : q ≠ 0 := by omega
  have hlt : ¬(q < 1) := not_lt.mpr hq
  have hstk : ¬(p.stock < q) := not_lt.mpr hs
  have hmem : ci ∈ db.cartItems := List.mem_of_find?_eq_some hline
  have hpred := List.find?_some hline
  have huser : ci.userId = u := by
    simp only [Bool.and_eq_true, beq_iff_eq] at hpred
    exact hpred.1
  have hprodid : ci.productId = pid := by
    simp only [Bool.and_eq_true, beq_iff_eq] at hpred
    exact hpred.2
  have hadd : addToCart db u (some pid) (some q) =
      Except.ok ({ ci with quantity := ci.quantity + q },
        { db with cartItems := db.cartItems.map (fun c =>
            if c.cid == ci.cid then { c with quantity := ci.quantity + q } else c) }) := by
    simp [addToCart, hpid, hq0, hlt, hp, hstk, hline]
  refine ⟨_, hadd, { ci with quantity := ci.quantity + q }, ?_, huser, hprodid, hover⟩
  have := List.mem_map_of_mem
    (fun c => if c.cid == ci.cid then { c with quantity := ci.quantity + q } else c) hmem
  simpa using this

theorem cart_add_ignores_existing_witness :
    ∃ db2, addToCart dbS9 1 (some 1) (some 3) =
        Except.ok ({ cid := 1, userId := 1, productId := 1, quantity := 7 }, db2) ∧
      ∃ c ∈ db2.cartItems, c.userId = 1 ∧ c.productId = 1 ∧ (5 : Int) < c.quantity :=
  cart_add_ignores_existing dbS9 1 1 3 ⟨1, "A", "desc", 3, none, 5, "cat", false, 0, 0⟩
    ⟨1, 1, 1, 4⟩ (by decide) (by decide) (by decide) (by decide) (by decide) (by decide)

/-- C8: for a cart of five lines of which exactly two carry the eco flag,
the cart-impact report says two eco-friendly items out of five, an eco
percentage of forty, and a green-point projection of floor(2 x 10) = 20;
the endpoint only reads the cart, so the user's points and savings ledger
is untouched by construction (the handler performs no write). -/
theorem cart_impact_projection (db : DB) (u : Nat)
    (hlen : (userCart db u).length = 5)
    (heco : ((userCart db u).filter (isEcoLine db)).length = 2) :
    (cartImpact db u).ecoFriendlyItems = 2 ∧
    (cartImpact db u).totalItems = 5 ∧
    (cartImpact db u).ecoPercentage = 40 ∧
    (cartImpact db u).potentialGreenPoints = 20 := by
  refine ⟨heco, hlen, ?_, by rw [cartImpact]; simp only [heco]⟩
  rw [cartImpact]
  simp only [heco, hlen]
  norm_num

theorem cart_impact_projection_witness :
    (cartImpact dbS8 1).ecoFriendlyItems = 2 ∧
    (cartImpact dbS8 1).totalItems = 5 ∧
    (cartImpact dbS8 1).ecoPercentage = 40 ∧
    (cartImpact dbS8 1).potentialGreenPoints = 20 :=
  cart_impact_projection dbS8 1 (by decide) (by decide)

/-- C10: product creation validates its required fields by truthiness, so a
price equal to the number zero is rejected as a missing field whatever the
other fields hold, while a request omitting stock (all required fields
truthy) succeeds and stores the product with stock zero. -/
theorem product_create_truthiness (db dbz : DB) (r rz : ProductReq)
    (hz : rz.price = some 0)
    (hname : truthyStr r.name = true) (hdesc : truthyStr r.description = true)
    (hprice : truthyNum r.price = true) (hcat : truthyStr r.category = true)
    (hstock : r.stock = none) :
    createProduct dbz rz = Except.error "Missing required fields" ∧
    ∃ p db2, createProduct db r = Except.ok (p, db2) ∧ p.stock = 0 ∧
      db2.products = db.products ++ [p] := by
  constructor
  · have hfz : truthyNum rz.price = false := by rw [hz]; rfl
    simp [createProduct, hfz]
  · have hcond : (truthyStr r.name && truthyStr r.description &&
        truthyNum r.price && truthyStr r.category) = true := by
      simp [hname, hdesc, hprice, hcat]
    simp only [createProduct, hcond, if_true]
    exact ⟨_, _, rfl, by simp [hstock], rfl⟩

theorem product_create_truthiness_witness :
    createProduct initDB ⟨some "A", some "d", some 0, none, some 5, some "c"⟩ =
      Except.error "Missing required fields" ∧
    ∃ p db2, createProduct initDB ⟨some "A", some "d", some 2, none, none, some "c"⟩ =
        Except.ok (p, db2) ∧ p.stock = 0 ∧ db2.products = initDB.products ++ [p] :=
  product_create_truthiness initDB initDB
    ⟨some "A", some "d", some 2, none, none, some "c"⟩
    ⟨some "A", some "d", some 0, none, some 5, some "c"⟩
    (by decide) (by decide) (by decide) (by decide) (by decide) (by decide)

theorem find_pid_nodup (ps : List Product)
    (hnd : (ps.map (fun p => p.pid)).Nodup) (p : Product) (hp : p ∈ ps) :
    ps.find? (fun q => q.pid == p.pid) = some p := by
  induction ps with
  | nil => simp at hp
  | cons q rest ih =>
    rw [List.map_cons, List.nodup_cons] at hnd
    rcases List.mem_cons.mp hp with rfl | hmem
    · simp [List.find?_cons]
    · have hne : q.pid ≠ p.pid := by
        intro he
        exact hnd.1 (he ▸ List.mem_map_of_mem (fun r => r.pid) hmem)
      rw [List.find?_cons]
      simp only [beq_eq_false_iff_ne.mpr hne]
      exact ih hnd.2 hmem

theorem qtyOf_zero (items : List CartItem) (pid : Nat)
    (h : ∀ c ∈ items, c.productId ≠ pid) : qtyOf items pid = 0 := by
  unfold qtyOf
  rw [List.filter_eq_nil_iff.mpr (fun c hc => by simp [h c hc])]
  rfl

theorem qtyOf_single (items : List CartItem)
    (hpw : List.Pairwise (fun a b : CartItem => a.productId ≠ b.productId) items)
    (pid : Nat) :
    qtyOf items pid = 0 ∨
      ∃ ci ∈ items, ci.productId = pid ∧ qtyOf items pid = ci.quantity := by
  induction items with
  | nil => exact Or.inl rfl
  | cons ci rest ih =>
    rw [List.pairwise_cons] at hpw
    rw [qtyOf_cons]
    by_cases h : ci.productId = pid
    · right
      refine ⟨ci, List.mem_cons_self ci rest, h, ?_⟩
      have hz : qtyOf rest pid = 0 :=
        qtyOf_zero rest pid (fun c hc => h ▸ (hpw.1 c hc).symm)
      rw [if_pos (beq_iff_eq.mpr h), hz, add_zero]
    · have hne : (ci.productId == pid) = false := beq_eq_false_iff_ne.mpr h
      rw [hne]
      simp only [Bool.false_eq_true, if_false, zero_add]
      rcases ih hpw.2 with hz | ⟨cj, hcj, hcjp, hcjq⟩
      · exact Or.inl hz
      · exact Or.inr ⟨cj, List.mem_cons_of_mem ci hcj, hcjp, hcjq⟩

theorem checkAndTotal_ok_stock (db : DB) (items : List CartItem) (t : Money)
    (h : checkAndTotal db items = Except.ok t) :
    ∀ ci ∈ items, ∃ p, findProduct db ci.productId = some p ∧ ci.quantity ≤ p.stock := by
  induction items generalizing t with
  | nil => intro ci hci; simp at hci
  | cons c rest ih =>
    intro ci hci
    unfold checkAndTotal at h
    split at h
    · exact absurd h (by simp)
    next p hfp =>
      split at h
      · exact absurd h (by simp)
      next hlt =>
        split at h
        next t2 hct =>
          rcases List.mem_cons.mp hci with rfl | hmem
          · exact ⟨p, hfp, not_lt.mp hlt⟩
          · exact ih t2 hct ci hmem
        next e hct => exact absurd h (by simp)

theorem userCart_pid_pairwise (db : DB) (u : Nat)
    (hpw : List.Pairwise
      (fun a b : CartItem => a.userId ≠ b.userId ∨ a.productId ≠ b.productId)
      db.cartItems) :
    List.Pairwise (fun a b : CartItem => a.productId ≠ b.productId) (userCart db u) := by
  have hsub : List.Pairwise
      (fun a b : CartItem => a.userId ≠ b.userId ∨ a.productId ≠ b.productId)
      (userCart db u) :=
    List.Pairwise.sublist (List.filter_sublist db.cartItems) hpw
  refine List.Pairwise.imp_of_mem (fun ha hb hr => ?_) hsub
  have ha2 := (List.mem_filter.mp ha).2
  have hb2 := (List.mem_filter.mp hb).2
  simp only [beq_iff_eq] at ha2 hb2
  rcases hr with h | h
  · exact absurd (ha2.trans hb2.symm) h
  · exact h

theorem inv_addToCart (db : DB) (u : Nat) (pid? : Option Nat) (q? : Option Int)
    (ci : CartItem) (db2 : DB) (hinv : StoreInv db)
    (h : addToCart db u pid? q? = Except.ok (ci, db2)) : StoreInv db2 := by
  obtain ⟨hstk, hnd, hbnd, hpw, hqty, hoq⟩ := hinv
  unfold addToCart at h
  split at h
  next pid q =>
    split at h
    · exact absurd h (by simp)
    next hguard =>
      have hg : (pid ≠ 0 ∧ q ≠ 0) ∧ 1 ≤ q := by
        simpa using hguard
      have hq1 : 1 ≤ q := hg.2
      split at h
      · exact absurd h (by simp)
      next p hfp =>
        split at h
        · exact absurd h (by simp)
        next hstock =>
          split at h
          next existing hline =>
            simp only [Except.ok.injEq, Prod.mk.injEq] at h
            obtain ⟨-, h2⟩ := h
            subst h2
            have hexq : 1 ≤ existing.quantity :=
              hqty existing (List.mem_of_find?_eq_some hline)
            refine ⟨hstk, hnd, hbnd, ?_, ?_, hoq⟩
            · rw [List.pairwise_map]
              refine hpw.imp (fun {a b} hr => ?_)
              by_cases ha : (a.cid == existing.cid) = true <;>
                by_cases hb : (b.cid == existing.cid) = true <;>
                simpa [ha, hb] using hr
            · intro c2 hc2
              obtain ⟨c, hc, rfl⟩ := List.mem_map.mp hc2
              by_cases hcc : (c.cid == existing.cid) = true
              · simp only [hcc, if_true]
                have := hqty c hc
                omega
              · simp only [hcc, if_false]
                exact hqty c hc
          next hline =>
            simp only [Except.ok.injEq, Prod.mk.injEq] at h
            obtain ⟨-, h2⟩ := h
            subst h2
            have hnew : ∀ a ∈ db.cartItems, a.userId ≠ u ∨ a.productId ≠ pid := by
              intro a ha
              have := List.find?_eq_none.mp hline a ha
              simp only [Bool.and_eq_true, beq_iff_eq, not_and] at this
              by_cases hau : a.userId = u
              · exact Or.inr (this hau)
              · exact Or.inl hau
            refine ⟨hstk, hnd, hbnd, ?_, ?_, hoq⟩
            · rw [List.pairwise_append]
              refine ⟨hpw, List.pairwise_singleton _ _, ?_⟩
              intro a ha b hb
              rw [List.mem_singleton] at hb
              subst hb
              exact hnew a ha
            · intro c2 hc2
              rcases List.mem_append.mp hc2 with hc | hc
              · exact hqty c2 hc
              · rw [List.mem_singleton] at hc
                subst hc
                exact hq1
  · exact absurd h (by simp)

theorem inv_updateCartItem (db : DB) (u cid : Nat) (q? : Option Int)
    (ci : CartItem) (db2 : DB) (hinv : StoreInv db)
    (h : updateCartItem db u cid q? = Except.ok (ci, db2)) : StoreInv db2 := by
  obtain ⟨hstk, hnd, hbnd, hpw, hqty, hoq⟩ := hinv
  unfold updateCartItem at h
  split at h
  · exact absurd h (by simp)
  next q =>
    split at h
    · exact absurd h (by simp)
    next hguard =>
      have hq1 : 1 ≤ q := by
        have : q ≠ 0 ∧ ¬(q < 1) := by simpa using hguard
        omega
      split at h
      · exact absurd h (by simp)
      next c hline =>
        split at h
        · exact absurd h (by simp)
        next p hfp =>
          split at h
          · exact absurd h (by simp)
          next hstock =>
            simp only [Except.ok.injEq, Prod.mk.injEq] at h
            obtain ⟨-, h2⟩ := h
            subst h2
            refine ⟨hstk, hnd, hbnd, ?_, ?_, hoq⟩
            · rw [List.pairwise_map]
              refine hpw.imp (fun {a b} hr => ?_)
              by_cases ha : (a.cid == cid) = true <;>
                by_cases hb : (b.cid == cid) = true <;>
                simpa [ha, hb] using hr
            · intro c2 hc2
              obtain ⟨c3, hc3, rfl⟩ := List.mem_map.mp hc2
              by_cases hcc : (c3.cid == cid) = true
              · simpa [hcc] using hq1
              · simpa [hcc] using hqty c3 hc3

theorem inv_removeCartItem (db : DB) (u cid : Nat) (db2 : DB) (hinv : StoreInv db)
    (h : removeCartItem db u cid = Except.ok db2) : StoreInv db2 := by
  obtain ⟨hstk, hnd, hbnd, hpw, hqty, hoq⟩ := hinv
  unfold removeCartItem at h
  split at h
  · exact absurd h (by simp)
  · simp only [Except.ok.injEq] at h
    subst h
    refine ⟨hstk, hnd, hbnd, ?_, ?_, hoq⟩
    · exact List.Pairwise.sublist (List.filter_sublist db.cartItems) hpw
    · intro c hc
      exact hqty c (List.mem_of_mem_filter hc)

theorem inv_clearCart (db : DB) (u : Nat) (hinv : StoreInv db) : StoreInv (clearCart db u) := by
  obtain ⟨hstk, hnd, hbnd, hpw, hqty, hoq⟩ := hinv
  refine ⟨hstk, hnd, hbnd, ?_, ?_, hoq⟩
  · exact List.Pairwise.sublist (List.filter_sublist db.cartItems) hpw
  · intro c hc
    exact hqty c (List.mem_of_mem_filter hc)

theorem pid_map_decrements (ps : List Product) (items : List CartItem) :
    (ps.map (fun p =>
      ({ p with stock := p.stock - qtyOf items p.pid } : Product))).map (fun p => p.pid) =
    ps.map (fun p => p.pid) := by
  rw [List.map_map]
  exact List.map_congr_left (fun p _ => rfl)

theorem pid_map_increments (ps : List Product) (items : List OrderItem) :
    (ps.map (fun p =>
      ({ p with stock := p.stock + ordQtyOf items p.pid } : Product))).map (fun p => p.pid) =
    ps.map (fun p => p.pid) := by
  rw [List.map_map]
  exact List.map_congr_left (fun p _ => rfl)

theorem inv_createOrder (db : DB) (u oid : Nat) (db2 : DB) (hinv : StoreInv db)
    (h : createOrder db u = Except.ok (oid, db2)) : StoreInv db2 := by
  obtain ⟨hstk, hnd, hbnd, hpw, hqty, hoq⟩ := hinv
  simp only [createOrder] at h
  split at h
  · exact absurd h (by simp)
  split at h
  · exact absurd h (by simp)
  next t hct =>
    simp only [Except.ok.injEq, Prod.mk.injEq] at h
    obtain ⟨-, h2⟩ := h
    subst h2
    have hppw := userCart_pid_pairwise db u hpw
    refine ⟨?_, ?_, ?_, ?_, ?_, ?_⟩
    · show ∀ p ∈ applyDecrements db.products (userCart db u), 0 ≤ p.stock
      rw [applyDecrements_eq]
      intro p2 hp2
      obtain ⟨p, hp, rfl⟩ := List.mem_map.mp hp2
      show 0 ≤ p.stock - qtyOf (userCart db u) p.pid
      rcases qtyOf_single (userCart db u) hppw p.pid with hz | ⟨ci, hci, hcip, hq⟩
      · rw [hz, sub_zero]
        exact hstk p hp
      · obtain ⟨p', hfp', hle⟩ := checkAndTotal_ok_stock db (userCart db u) t hct ci hci
        have hfind : findProduct db p.pid = some p := find_pid_nodup db.products hnd p hp
        rw [hcip, hfind] at hfp'
        obtain rfl : p = p' := by simpa using hfp'
        rw [hq]
        omega
    · show ((applyDecrements db.products (userCart db u)).map (fun p => p.pid)).Nodup
      rw [applyDecrements_eq, pid_map_decrements]
      exact hnd
    · show ∀ p ∈ applyDecrements db.products (userCart db u), p.pid < db.nextProductId
      rw [applyDecrements_eq]
      intro p2 hp2
      obtain ⟨p, hp, rfl⟩ := List.mem_map.mp hp2
      exact hbnd p hp
    · exact List.Pairwise.sublist (List.filter_sublist db.cartItems) hpw
    · intro c hc
      exact hqty c (List.mem_of_mem_filter hc)
    · intro oi hoi
      rcases List.mem_append.mp hoi with hold | hnewi
      · exact hoq oi hold
      · obtain ⟨ci, hci, rfl⟩ := List.mem_map.mp hnewi
        have : 1 ≤ ci.quantity := hqty ci (List.mem_of_mem_filter hci)
        show (0 : Int) ≤ ci.quantity
        omega

theorem inv_cancelOrder (db : DB) (u oid : Nat) (db2 : DB) (hinv : StoreInv db)
    (h : cancelOrder db u oid = Except.ok db2) : StoreInv db2 := by
  obtain ⟨hstk, hnd, hbnd, hpw, hqty, hoq⟩ := hinv
  unfold cancelOrder at h
  split at h
  · exact absurd h (by simp)
  split at h
  · exact absurd h (by simp)
  simp only [Except.ok.injEq] at h
  subst h
  refine ⟨?_, ?_, ?_, hpw, hqty, ?_⟩
  · show ∀ p ∈ applyIncrements db.products
        (db.orderItems.filter (fun oi => oi.orderId == oid)), 0 ≤ p.stock
    rw [applyIncrements_eq]
    intro p2 hp2
    obtain ⟨p, hp, rfl⟩ := List.mem_map.mp hp2
    show 0 ≤ p.stock + ordQtyOf (db.orderItems.filter (fun oi => oi.orderId == oid)) p.pid
    have hq : 0 ≤ ordQtyOf (db.orderItems.filter (fun oi => oi.orderId == oid)) p.pid := by
      refine List.sum_nonneg ?_
      intro x hx
      obtain ⟨oi, hoi, rfl⟩ := List.mem_map.mp hx
      exact hoq oi (List.mem_of_mem_filter (List.mem_of_mem_filter hoi))
    have := hstk p hp
    omega
  · show ((applyIncrements db.products
        (db.orderItems.filter (fun oi => oi.orderId == oid))).map (fun p => p.pid)).Nodup
    rw [applyIncrements_eq, pid_map_increments]
    exact hnd
  · show ∀ p ∈ applyIncrements db.products
        (db.orderItems.filter (fun oi => oi.orderId == oid)), p.pid < db.nextProductId
    rw [applyIncrements_eq]
    intro p2 hp2
    obtain ⟨p, hp, rfl⟩ := List.mem_map.mp hp2
    exact hbnd p hp
  · intro oi hoi
    exact hoq oi (List.mem_of_mem_filter hoi)

theorem inv_updateOrderStatus (db : DB) (u oid : Nat) (s? : Option String)
    (o : Order) (db2 : DB) (hinv : StoreInv db)
    (h : updateOrderStatus db u oid s? = Except.ok (o, db2)) : StoreInv db2 := by
  unfold updateOrderStatus at h
  split at h
  · exact absurd h (by simp)
  split at h
  · split at h
    · exact absurd h (by simp)
    · simp only [Except.ok.injEq, Prod.mk.injEq] at h
      obtain ⟨-, h2⟩ := h
      subst h2
      exact hinv
  · exact absurd h (by simp)

theorem inv_createProduct (db : DB) (r : ProductReq) (p : Product) (db2 : DB)
    (hinv : StoreInv db) (hst : ∀ s, r.stock = some s → 0 ≤ s)
    (h : createProduct db r = Except.ok (p, db2)) : StoreInv db2 := by
  obtain ⟨hstk, hnd, hbnd, hpw, hqty, hoq⟩ := hinv
  have hnew : (0 : Int) ≤ r.stock.getD 0 := by
    cases hs : r.stock with
    | none => simp
    | some s => simpa using hst s hs
  unfold createProduct at h
  split at h
  · simp only [Except.ok.injEq, Prod.mk.injEq] at h
    obtain ⟨-, h2⟩ := h
    subst h2
    refine ⟨?_, ?_, ?_, hpw, hqty, hoq⟩
    · intro p2 hp2
      rcases List.mem_append.mp hp2 with hold | hnewp
      · exact hstk p2 hold
      · rw [List.mem_singleton] at hnewp
        subst hnewp
        exact hnew
    · rw [List.map_append, List.nodup_append]
      refine ⟨hnd, List.nodup_singleton _, ?_⟩
      intro a ha hb
      rw [List.map_singleton, List.mem_singleton] at hb
      subst hb
      obtain ⟨p3, hp3, hpa⟩ := List.mem_map.mp ha
      exact absurd hpa.symm (Nat.ne_of_gt (hbnd p3 hp3))
    · intro p2 hp2
      rcases List.mem_append.mp hp2 with hold | hnewp
      · exact Nat.lt_succ_of_lt (hbnd p2 hold)
      · rw [List.mem_singleton] at hnewp
        subst hnewp
        exact Nat.lt_succ_self _
  · exact absurd h (by simp)

theorem inv_updateProduct (db : DB) (pid : Nat) (r : ProductReq) (p2 : Product)
    (db2 : DB) (hinv : StoreInv db) (hst : ∀ s, r.stock = some s → 0 ≤ s)
    (h : updateProduct db pid r = Except.ok (p2, db2)) : StoreInv db2 := by
  obtain ⟨hstk, hnd, hbnd, hpw, hqty, hoq⟩ := hinv
  unfold updateProduct at h
  split at h
  · exact absurd h (by simp)
  next p hfp =>
    simp only [Except.ok.injEq, Prod.mk.injEq] at h
    obtain ⟨-, h2⟩ := h
    subst h2
    have hpmem : p ∈ db.products := List.mem_of_find?_eq_some hfp
    have hppid : p.pid = pid := by simpa using List.find?_some hfp
    have hnewstock : (0 : Int) ≤ r.stock.getD p.stock := by
      cases hs : r.stock with
      | none => simpa using hstk p hpmem
      | some s => simpa using hst s hs
    have hpid_eq : ∀ q ∈ db.products,
        ((if q.pid == pid then
            ({ p with
               name := r.name.getD p.name
               description := r.description.getD p.description
               price := r.price.getD p.price
               imageUrl := match r.imageUrl with | some s => some s | none => p.imageUrl
               stock := r.stock.getD p.stock
               category := r.category.getD p.category } : Product)
          else q) : Product).pid = q.pid := by
      intro q _
      by_cases hq : (q.pid == pid) = true
      · simp only [hq, if_true]
        show p.pid = q.pid
        rw [hppid]
        exact (beq_iff_eq.mp hq).symm
      · simp [hq]
    refine ⟨?_, ?_, ?_, hpw, hqty, hoq⟩
    · intro q2 hq2
      obtain ⟨q, hq, rfl⟩ := List.mem_map.mp hq2
      by_cases hqq : (q.pid == pid) = true
      · simpa [hqq] using hnewstock
      · simpa [hqq] using hstk q hq
    · rw [List.map_map]
      have : db.products.map
          ((fun q3 : Product => q3.pid) ∘ (fun q => if q.pid == pid then
            ({ p with
               name := r.name.getD p.name
               description := r.description.getD p.description
               price := r.price.getD p.price
               imageUrl := match r.imageUrl with | some s => some s | none => p.imageUrl
               stock := r.stock.getD p.stock
               category := r.category.getD p.category } : Product)
          else q)) = db.products.map (fun q => q.pid) :=
        List.map_congr_left (fun q hq => hpid_eq q hq)
      rw [this]
      exact hnd
    · intro q2 hq2
      obtain ⟨q, hq, rfl⟩ := List.mem_map.mp hq2
      rw [hpid_eq q hq]
      exact hbnd q hq

theorem inv_deleteProduct (db : DB) (pid : Nat) (db2 : DB) (hinv : StoreInv db)
    (h : deleteProduct db pid = Except.ok db2) : StoreInv db2 := by
  obtain ⟨hstk, hnd, hbnd, hpw, hqty, hoq⟩ := hinv
  unfold deleteProduct at h
  split at h
  · exact absurd h (by simp)
  · simp only [Except.ok.injEq] at h
    subst h
    refine ⟨?_, ?_, ?_, hpw, hqty, hoq⟩
    · intro q hq
      exact hstk q (List.mem_of_mem_filter hq)
    · exact List.Nodup.sublist
        (List.Sublist.map (fun p => p.pid) (List.filter_sublist db.products)) hnd
    · intro q hq
      exact hbnd q (List.mem_of_mem_filter hq)

theorem inv_applyOp (db : DB) (op : Op) (hinv : StoreInv db)
    (hclean : cleanOp op = true) : StoreInv (applyOp db op) := by
  cases op with
  | register => exact hinv
  | addCart u pid? q? =>
    cases h : addToCart db u pid? q? with
    | ok res =>
      obtain ⟨ci, db2⟩ := res
      have he : applyOp db (Op.addCart u pid? q?) = db2 := by simp [applyOp, h]
      rw [he]
      exact inv_addToCart db u pid? q? ci db2 hinv h
    | error e =>
      have he : applyOp db (Op.addCart u pid? q?) = db := by simp [applyOp, h]
      rw [he]
      exact hinv
  | updateCart u cid q? =>
    cases h : updateCartItem db u cid q? with
    | ok res =>
      obtain ⟨ci, db2⟩ := res
      have he : applyOp db (Op.updateCart u cid q?) = db2 := by simp [applyOp, h]
      rw [he]
      exact inv_updateCartItem db u cid q? ci db2 hinv h
    | error e =>
      have he : applyOp db (Op.updateCart u cid q?) = db := by simp [applyOp, h]
      rw [he]
      exact hinv
  | removeCart u cid =>
    cases h : removeCartItem db u cid with
    | ok db2 =>
      have he : applyOp db (Op.removeCart u cid) = db2 := by simp [applyOp, h]
      rw [he]
      exact inv_removeCartItem db u cid db2 hinv h
    | error e =>
      have he : applyOp db (Op.removeCart u cid) = db := by simp [applyOp, h]
      rw [he]
      exact hinv
  | clearCart u => exact inv_clearCart db u hinv
  | checkout u =>
    cases h : createOrder db u with
    | ok res =>
      obtain ⟨oid, db2⟩ := res
      have he : applyOp db (Op.checkout u) = db2 := by simp [applyOp, h]
      rw [he]
      exact inv_createOrder db u oid db2 hinv h
    | error e =>
      have he : applyOp db (Op.checkout u) = db := by simp [applyOp, h]
      rw [he]
      exact hinv
  | cancel u oid =>
    cases h : cancelOrder db u oid with
    | ok db2 =>
      have he : applyOp db (Op.cancel u oid) = db2 := by simp [applyOp, h]
      rw [he]
      exact inv_cancelOrder db u oid db2 hinv h
    | error e =>
      have he : applyOp db (Op.cancel u oid) = db := by simp [applyOp, h]
      rw [he]
      exact hinv
  | setStatus u oid s? =>
    cases h : updateOrderStatus db u oid s? with
    | ok res =>
      obtain ⟨o, db2⟩ := res
      have he : applyOp db (Op.setStatus u oid s?) = db2 := by simp [applyOp, h]
      rw [he]
      exact inv_updateOrderStatus db u oid s? o db2 hinv h
    | error e =>
      have he : applyOp db (Op.setStatus u oid s?) = db := by simp [applyOp, h]
      rw [he]
      exact hinv
  | prodCreate r =>
    have hst : ∀ s, r.stock = some s → 0 ≤ s := by
      intro s hs
      simp only [cleanOp] at hclean
      rw [hs] at hclean
      exact of_decide_eq_true hclean
    cases h : createProduct db r with
    | ok res =>
      obtain ⟨p, db2⟩ := res
      have he : applyOp db (Op.prodCreate r) = db2 := by simp [applyOp, h]
      rw [he]
      exact inv_createProduct db r p db2 hinv hst h
    | error e =>
      have he : applyOp db (Op.prodCreate r) = db := by simp [applyOp, h]
      rw [he]
      exact hinv
  | prodUpdate pid r =>
    have hst : ∀ s, r.stock = some s → 0 ≤ s := by
      intro s hs
      simp only [cleanOp] at hclean
      rw [hs] at hclean
      exact of_decide_eq_true hclean
    cases h : updateProduct db pid r with
    | ok res =>
      obtain ⟨p, db2⟩ := res
      have he : applyOp db (Op.prodUpdate pid r) = db2 := by simp [applyOp, h]
      rw [he]
      exact inv_updateProduct db pid r p db2 hinv hst h
    | error e =>
      have he : applyOp db (Op.prodUpdate pid r) = db := by simp [applyOp, h]
      rw [he]
      exact hinv
  | prodDelete pid =>
    cases h : deleteProduct db pid with
    | ok db2 =>
      have he : applyOp db (Op.prodDelete pid) = db2 := by simp [applyOp, h]
      rw [he]
      exact inv_deleteProduct db pid db2 hinv h
    | error e =>
      have he : applyOp db (Op.prodDelete pid) = db := by simp [applyOp, h]
      rw [he]
      exact hinv

theorem inv_runOps (db : DB) (ops : List Op) (hinv : StoreInv db)
    (hclean : ∀ op ∈ ops, cleanOp op = true) : StoreInv (runOps db ops) := by
  induction ops generalizing db with
  | nil => exact hinv
  | cons op rest ih =>
    exact ih (applyOp db op)
      (inv_applyOp db op hinv (hclean op (List.mem_cons_self op rest)))
      (fun o ho => hclean o (List.mem_cons_of_mem op ho))

theorem storeInv_init : StoreInv initDB := by
  refine ⟨?_, ?_, ?_, ?_, ?_, ?_⟩ <;> simp [initDB]

/-- C4 counterexample: the admin product routes forward the request's stock
value unvalidated, so a single admin product create carrying stock -5 —
a sequential trace of the operations the claim quantifies over — reaches a
state holding a product with negative stock. -/
theorem stock_nonneg_counterexample :
    ∃ p ∈ (runOps initDB
      [Op.prodCreate ⟨some "A", some "desc", some 3, none, some (-5), some "cat"⟩]).products,
      p.stock < 0 := by
  decide

/-- C4 (amended): starting from the empty store, every state reached by a
sequential trace of registration, cart operations, checkout, cancellation
and admin product create/update/delete in which each admin-supplied stock
value (when the field is present) is non-negative has non-negative stock on
every product. -/
theorem stock_nonneg_reachable (ops : List Op)
    (hclean : ∀ op ∈ ops, cleanOp op = true) :
    ∀ p ∈ (runOps initDB ops).products, 0 ≤ p.stock :=
  (inv_runOps initDB ops storeInv_init hclean).1

theorem stock_nonneg_reachable_witness :
    (runOps initDB opsW).products.all (fun p => decide (0 ≤ p.stock)) = true := by
  have h := stock_nonneg_reachable opsW (by decide)
  rw [List.all_eq_true]
  intro p hp
  exact decide_eq_true (h p hp)
